import Mathlib

/-!
# landrun: the command-line entry point (`cmd/landrun/main.go`)

A shallow embedding of `main.go`: the translation of the parsed flags into a
`sandbox.Config`, the computation of the child environment
(`processEnvironmentVars`) and the control flow of the CLI action
(`log.Fatal` / `sandbox.Apply` / `exec.Run`).  The dispatch that the
command-line library performs around the action (flag parsing, the built-in
help, the handling of the error the action returns) is not part of the
embedding: every statement is about the action itself.

Conventions of the embedding:

* Go strings are Lean strings.  The only string test of the program is
  `strings.Contains(env, "=")`; `=` is one byte in UTF-8 and is never part of
  the encoding of another character, so the test is the same on bytes and on
  characters.
* Go slices are lists, `append(xs, ys...)` is `xs ++ ys`.
* Go `int` port values are integers; they are only passed on, never computed
  with.
* A Go `error` result is an `Option ε`, `none` being `nil`.
* The packages `internal/log`, `internal/sandbox` and `internal/exec` are
  collaborators of `main.go`: the calls the action makes to them are recorded
  in the order they are made, and what they return is given by a `World`.
-/

namespace Landrun

/-! ## Strings and the process environment -/

/-- Go `strings.Contains(s, substr)`: `substr` occurs within `s`. -/
def stringsContains (s substr : String) : Bool :=
  decide (substr.data <:+: s.data)

/-- The invoking environment as `os.LookupEnv` reads it: `some v` when the
variable is set to `v` (possibly the empty string), `none` when it is unset. -/
abbrev Environ := String → Option String

/-- Source function `processEnvironmentVars` (main.go:126-142), with the
environment read by `os.LookupEnv` made explicit.  The `for ... range` loop is a
left fold whose accumulator is `result`. -/
def processEnvironmentVars (LookupEnv : Environ) (envFlags : List String) : List String :=
  envFlags.foldl
    (fun result env =>
      if !stringsContains env "=" then
        match LookupEnv env with
        | some val => result ++ [env ++ "=" ++ val]
        | none => result
      else
        result ++ [env])
    []

/-- What one `--env` flag contributes, in the words of the specification:
a flag containing `=` yields itself verbatim, a bare name that is set to `v`
yields `name=v`, a bare name that is unset yields nothing. -/
def envEntrySpec (environ : Environ) (flag : String) : Option String :=
  if stringsContains flag "=" then some flag
  else (environ flag).map (fun v => flag ++ "=" ++ v)

/-- The child environment in the words of the specification: the flags are
mapped one by one, in order, and the flags that yield nothing are left out. -/
def childEnvSpec (environ : Environ) (flags : List String) : List String :=
  flags.filterMap (envEntrySpec environ)

/-! ## The sandbox configuration and the parsed command line -/

/-- The value `sandbox.Config` built by the composite literal at main.go:97-107
(the type is declared in `internal/sandbox`; its fields are the ones the
literal names). -/
structure Config where
  ReadOnlyPaths : List String
  ReadWritePaths : List String
  ReadOnlyExecutablePaths : List String
  ReadWriteExecutablePaths : List String
  BindTCPPorts : List Int
  ConnectTCPPorts : List Int
  BestEffort : Bool
  UnrestrictedFilesystem : Bool
  UnrestrictedNetwork : Bool
  deriving DecidableEq, Repr

/-- The parsed command line (`*cli.Context`), one field per flag declared at
main.go:21-74 plus the positional arguments `c.Args().Slice()`. -/
structure Context where
  /-- Value of `c.String("log-level")`. -/
  flagLogLevel : String
  /-- Value of `c.StringSlice("ro")`. -/
  flagRo : List String
  /-- Value of `c.StringSlice("rox")`. -/
  flagRox : List String
  /-- Value of `c.StringSlice("rw")`. -/
  flagRw : List String
  /-- Value of `c.StringSlice("rwx")`. -/
  flagRwx : List String
  /-- Value of `c.IntSlice("bind-tcp")`. -/
  flagBindTcp : List Int
  /-- Value of `c.IntSlice("connect-tcp")`. -/
  flagConnectTcp : List Int
  /-- Value of `c.Bool("best-effort")`. -/
  flagBestEffort : Bool
  /-- Value of `c.StringSlice("env")`. -/
  flagEnv : List String
  /-- Value of `c.Bool("unrestricted-filesystem")`. -/
  flagUnrestrictedFilesystem : Bool
  /-- Value of `c.Bool("unrestricted-network")`. -/
  flagUnrestrictedNetwork : Bool
  /-- Value of `c.Args().Slice()`: the command to run and its arguments. -/
  Args : List String
  deriving DecidableEq, Repr

/-! ## Calls to the collaborating packages -/

/-- A call made by the action of `main.go` into `internal/log`,
`internal/sandbox` or `internal/exec`, with its arguments.  The type `ε` is
Go's `error`. -/
inductive Call (ε : Type) where
  | logFatal (format : String) (v : List ε)
  | sandboxApply (cfg : Config)
  | execRun (args : List String) (env : List String)
  deriving DecidableEq, Repr

/-- How a piece of sequential code ends: the process was terminated by
`log.Fatal` (with the message it was given), or the code returned a value. -/
inductive Halt (ε α : Type) where
  | fatal (format : String) (v : List ε)
  | ret (a : α)
  deriving DecidableEq, Repr

/-- A run of sequential code: the calls it made, in order, and how it ended. -/
structure Proc (ε α : Type) where
  calls : List (Call ε)
  halt : Halt ε α
  deriving DecidableEq, Repr

/-- Sequencing of statements: nothing after a terminated process runs. -/
def Proc.bind {ε α β : Type} (m : Proc ε α) (f : α → Proc ε β) : Proc ε β :=
  match m.halt with
  | .fatal format v => ⟨m.calls, .fatal format v⟩
  | .ret a => ⟨m.calls ++ (f a).calls, (f a).halt⟩

instance {ε : Type} : Monad (Proc ε) where
  pure a := ⟨[], .ret a⟩
  bind := Proc.bind

/-- What the process runs in: the invoking environment, and the results the
collaborating packages give (`none` is a `nil` error). -/
structure World (ε : Type) where
  /-- Go `os.LookupEnv`. -/
  LookupEnv : Environ
  /-- Result of `sandbox.Apply(cfg)`. -/
  Apply : Config → Option ε
  /-- Result of `exec.Run(args, env)` when it returns. -/
  Run : List String → List String → Option ε

/-- Modelled from the spec: `log.Fatal` of package `internal/log`, whose source
is not in `cmd/landrun`.  Section 6: on a fatal error the "process must
terminate without exec'ing the target command"; section 7: "fatal errors must
be reported".  The call is recorded and the process ends there; nothing is
returned to the caller. -/
def logFatal {ε α : Type} (format : String) (v : List ε) : Proc ε α :=
  ⟨[.logFatal format v], .fatal format v⟩

/-- The call `sandbox.Apply(cfg)`; the result is the world's. -/
def sandboxApply {ε : Type} (w : World ε) (cfg : Config) : Proc ε (Option ε) :=
  ⟨[.sandboxApply cfg], .ret (w.Apply cfg)⟩

/-- The call `exec.Run(args, env)`; the result is the world's. -/
def execRun {ε : Type} (w : World ε) (args env : List String) : Proc ε (Option ε) :=
  ⟨[.execRun args env], .ret (w.Run args env)⟩

/-! ## The CLI action -/

/-- The `Action` closure of the `cli.App` (main.go:79-117). -/
def Action {ε : Type} (w : World ε) (c : Context) : Proc ε (Option ε) := do
  let args := c.Args
  if args.length == 0 then
    logFatal "Missing command to run" []
  -- Combine --ro and --rox paths for read-only access
  let readOnlyPaths := ([] : List String) ++ c.flagRo
  let readOnlyPaths := readOnlyPaths ++ c.flagRox
  -- Combine --rw and --rwx paths for read-write access
  let readWritePaths := ([] : List String) ++ c.flagRw
  let readWritePaths := readWritePaths ++ c.flagRwx
  -- Combine --rox and --rwx paths for executable permissions
  let readOnlyExecutablePaths := ([] : List String) ++ c.flagRox
  let readWriteExecutablePaths := ([] : List String) ++ c.flagRwx
  let cfg : Config := {
    ReadOnlyPaths := readOnlyPaths
    ReadWritePaths := readWritePaths
    ReadOnlyExecutablePaths := readOnlyExecutablePaths
    ReadWriteExecutablePaths := readWriteExecutablePaths
    BindTCPPorts := c.flagBindTcp
    ConnectTCPPorts := c.flagConnectTcp
    BestEffort := c.flagBestEffort
    UnrestrictedFilesystem := c.flagUnrestrictedFilesystem
    UnrestrictedNetwork := c.flagUnrestrictedNetwork
  }
  -- Process environment variables
  let envVars := processEnvironmentVars w.LookupEnv c.flagEnv
  if let some err := ← sandboxApply w cfg then
    logFatal "Failed to apply sandbox: %v" [err]
  execRun w args envVars

/-- The configurations handed to `sandbox.Apply` during a run. -/
def appliedConfigs {ε : Type} (calls : List (Call ε)) : List Config :=
  calls.filterMap (fun call => match call with
    | .sandboxApply cfg => some cfg
    | _ => none)

/-- The `(args, env)` pairs handed to `exec.Run` during a run. -/
def execRuns {ε : Type} (calls : List (Call ε)) : List (List String × List String) :=
  calls.filterMap (fun call => match call with
    | .execRun args env => some (args, env)
    | _ => none)

/-! ## The configuration in closed form, and concrete runs -/

/-- The configuration literal of main.go:97-107 as a function of the flags,
with the `append` calls of main.go:86-95 carried out. -/
def configOf (c : Context) : Config := {
  ReadOnlyPaths := c.flagRo ++ c.flagRox
  ReadWritePaths := c.flagRw ++ c.flagRwx
  ReadOnlyExecutablePaths := c.flagRox
  ReadWriteExecutablePaths := c.flagRwx
  BindTCPPorts := c.flagBindTcp
  ConnectTCPPorts := c.flagConnectTcp
  BestEffort := c.flagBestEffort
  UnrestrictedFilesystem := c.flagUnrestrictedFilesystem
  UnrestrictedNetwork := c.flagUnrestrictedNetwork
}

/-- An environment in which `HOME` is set, `EMPTY` is set to the empty string
and nothing else is set. -/
def sampleEnviron : Environ := fun name =>
  if name = "HOME" then some "/root" else if name = "EMPTY" then some "" else none

/-- The environment `sampleEnviron` with one more variable, `SECRET`, set. -/
def widerEnviron : Environ := fun name =>
  if name = "SECRET" then some "hunter2" else sampleEnviron name

/-- A command line with every kind of flag given, a repeated path, a repeated
port and two port values outside `[0, 65535]`. -/
def sampleContext : Context := {
  flagLogLevel := "error"
  flagRo := ["/usr"]
  flagRox := ["/bin", "/bin"]
  flagRw := ["/tmp"]
  flagRwx := ["/opt"]
  flagBindTcp := [8080, 70000, 8080]
  flagConnectTcp := [-1]
  flagBestEffort := false
  flagEnv := ["HOME", "A=1", "NOPE", "EMPTY"]
  flagUnrestrictedFilesystem := true
  flagUnrestrictedNetwork := false
  Args := ["ls", "-l"]
}

/-- The command line `sampleContext` without a command to run. -/
def noCommandContext : Context := { sampleContext with Args := [] }

/-- A world in which the sandbox is applied and `exec.Run` returns an error. -/
def runFailsWorld : World String := {
  LookupEnv := sampleEnviron
  Apply := fun _ => none
  Run := fun _ _ => some "executable file not found"
}

/-- A world in which `sandbox.Apply` returns an error. -/
def applyFailsWorld : World String := {
  LookupEnv := sampleEnviron
  Apply := fun _ => some "landlock is not supported"
  Run := fun _ _ => none
}

/-! ## Lemmas on strings and on the environment loop -/

theorem singleton_infix_iff_mem {α : Type} (a : α) (l : List α) : [a] <:+: l ↔ a ∈ l := by
  constructor
  · rintro ⟨s, t, rfl⟩
    simp
  · intro h
    obtain ⟨s, t, rfl⟩ := List.append_of_mem h
    exact ⟨s, t, by simp⟩

theorem stringsContains_eq_iff (s : String) :
    stringsContains s "=" = true ↔ '=' ∈ s.data := by
  unfold stringsContains
  rw [decide_eq_true_iff]
  exact singleton_infix_iff_mem '=' s.data

theorem stringsContains_assignment (name val : String) :
    stringsContains (name ++ "=" ++ val) "=" = true := by
  rw [stringsContains_eq_iff]
  simp [String.data_append]

/-- The loop of `processEnvironmentVars`, started from any `result`, appends
the specified entries to it. -/
theorem processEnvironmentVars_loop (L : Environ) (envFlags result : List String) :
    envFlags.foldl
      (fun result env =>
        if !stringsContains env "=" then
          match L env with
          | some val => result ++ [env ++ "=" ++ val]
          | none => result
        else
          result ++ [env])
      result
    = result ++ childEnvSpec L envFlags := by
  induction envFlags generalizing result with
  | nil => simp [childEnvSpec]
  | cons env rest ih =>
    rw [List.foldl_cons, ih]
    cases hc : stringsContains env "=" <;> cases hl : L env <;>
      simp [childEnvSpec, envEntrySpec, hc, hl]

theorem processEnvironmentVars_eq (L : Environ) (envFlags : List String) :
    processEnvironmentVars L envFlags = childEnvSpec L envFlags := by
  unfold processEnvironmentVars
  rw [processEnvironmentVars_loop]
  simp

theorem childEnvSpec_congr (L₁ L₂ : Environ) (flags : List String)
    (h : ∀ flag ∈ flags, stringsContains flag "=" = false → L₁ flag = L₂ flag) :
    childEnvSpec L₁ flags = childEnvSpec L₂ flags := by
  induction flags with
  | nil => rfl
  | cons flag rest ih =>
    have hrest := ih (fun f hf => h f (List.mem_cons_of_mem _ hf))
    have hhead : envEntrySpec L₁ flag = envEntrySpec L₂ flag := by
      cases hc : stringsContains flag "="
      · simp [envEntrySpec, hc, h flag (List.mem_cons_self _ _) hc]
      · simp [envEntrySpec, hc]
    unfold childEnvSpec at hrest ⊢
    simp only [List.filterMap_cons, hhead, hrest]

theorem mem_childEnvSpec (L : Environ) (flags : List String) (entry : String)
    (h : entry ∈ childEnvSpec L flags) :
    ∃ flag ∈ flags, (stringsContains flag "=" = true ∧ entry = flag) ∨
      (stringsContains flag "=" = false ∧ ∃ v, L flag = some v ∧ entry = flag ++ "=" ++ v) := by
  unfold childEnvSpec at h
  rw [List.mem_filterMap] at h
  obtain ⟨flag, hmem, hentry⟩ := h
  refine ⟨flag, hmem, ?_⟩
  cases hc : stringsContains flag "="
  · right
    simp only [envEntrySpec, hc, Bool.false_eq_true, if_false, Option.map_eq_some'] at hentry
    obtain ⟨v, hv, rfl⟩ := hentry
    exact ⟨rfl, v, hv, rfl⟩
  · left
    simp only [envEntrySpec, hc, if_true, Option.some.injEq] at hentry
    exact ⟨rfl, hentry.symm⟩

theorem childEnvSpec_all_contain (L : Environ) (flags : List String) :
    ∀ entry ∈ childEnvSpec L flags, stringsContains entry "=" = true := by
  intro entry h
  obtain ⟨flag, _, hcase⟩ := mem_childEnvSpec L flags entry h
  rcases hcase with ⟨hc, rfl⟩ | ⟨_, v, _, rfl⟩
  · exact hc
  · exact stringsContains_assignment flag v

theorem childEnvSpec_fixed (L : Environ) (entries : List String)
    (h : ∀ entry ∈ entries, stringsContains entry "=" = true) :
    childEnvSpec L entries = entries := by
  induction entries with
  | nil => rfl
  | cons entry rest ih =>
    have hrest := ih (fun e he => h e (List.mem_cons_of_mem _ he))
    unfold childEnvSpec at hrest ⊢
    simp [envEntrySpec, h entry (List.mem_cons_self _ _), hrest]

/-! ## The three paths of the action -/

theorem Action_missing_command {ε : Type} (w : World ε) (c : Context) (h : c.Args = []) :
    Action w c
      = ⟨[.logFatal "Missing command to run" []], .fatal "Missing command to run" []⟩ := by
  simp [Action, h, bind, Proc.bind, logFatal]

theorem Action_apply_failed {ε : Type} (w : World ε) (c : Context) (err : ε)
    (h : c.Args ≠ []) (he : w.Apply (configOf c) = some err) :
    Action w c
      = ⟨[.sandboxApply (configOf c), .logFatal "Failed to apply sandbox: %v" [err]],
          .fatal "Failed to apply sandbox: %v" [err]⟩ := by
  simp only [configOf] at he
  simp [Action, h, bind, Proc.bind, logFatal, sandboxApply, pure, he, configOf]

theorem Action_apply_succeeded {ε : Type} (w : World ε) (c : Context)
    (h : c.Args ≠ []) (he : w.Apply (configOf c) = none) :
    Action w c
      = ⟨[.sandboxApply (configOf c),
            .execRun c.Args (processEnvironmentVars w.LookupEnv c.flagEnv)],
          .ret (w.Run c.Args (processEnvironmentVars w.LookupEnv c.flagEnv))⟩ := by
  simp only [configOf] at he
  simp [Action, h, bind, Proc.bind, sandboxApply, pure, he, configOf, execRun]

/-- The action takes exactly one of its three paths. -/
theorem Action_cases {ε : Type} (w : World ε) (c : Context) :
    (c.Args = [] ∧ Action w c
        = ⟨[.logFatal "Missing command to run" []], .fatal "Missing command to run" []⟩) ∨
    (∃ err, c.Args ≠ [] ∧ w.Apply (configOf c) = some err ∧ Action w c
        = ⟨[.sandboxApply (configOf c), .logFatal "Failed to apply sandbox: %v" [err]],
            .fatal "Failed to apply sandbox: %v" [err]⟩) ∨
    (c.Args ≠ [] ∧ w.Apply (configOf c) = none ∧ Action w c
        = ⟨[.sandboxApply (configOf c),
              .execRun c.Args (processEnvironmentVars w.LookupEnv c.flagEnv)],
            .ret (w.Run c.Args (processEnvironmentVars w.LookupEnv c.flagEnv))⟩) := by
  by_cases h : c.Args = []
  · exact Or.inl ⟨h, Action_missing_command w c h⟩
  · rcases Option.eq_none_or_eq_some (w.Apply (configOf c)) with he | ⟨err, he⟩
    · exact Or.inr (Or.inr ⟨h, he, Action_apply_succeeded w c h he⟩)
    · exact Or.inr (Or.inl ⟨err, h, he, Action_apply_failed w c err h he⟩)

/-- Every configuration the action hands to `sandbox.Apply` is the one built
from the flags. -/
theorem applied_config_eq {ε : Type} (w : World ε) (c : Context) (cfg : Config)
    (h : Call.sandboxApply cfg ∈ (Action w c).calls) : cfg = configOf c := by
  rcases Action_cases w c with ⟨_, hA⟩ | ⟨err, _, _, hA⟩ | ⟨_, _, hA⟩ <;>
    rw [hA] at h <;> simp at h <;> exact h

/-- With a command given, the action calls `sandbox.Apply` exactly once. -/
theorem applied_config_once {ε : Type} (w : World ε) (c : Context) (h : c.Args ≠ []) :
    appliedConfigs (Action w c).calls = [configOf c] := by
  rcases Action_cases w c with ⟨h0, _⟩ | ⟨err, _, _, hA⟩ | ⟨_, _, hA⟩
  · exact absurd h0 h
  · rw [hA]; simp [appliedConfigs]
  · rw [hA]; simp [appliedConfigs]

/-! ## The claims -/

/-- C1: the action calls `exec.Run` only after `sandbox.Apply` was called and
returned no error; whenever `sandbox.Apply` returns an error the action ends in
`log.Fatal("Failed to apply sandbox: %v", err)` and `exec.Run` is not called. -/
theorem C1_exec_only_after_apply_succeeded {ε : Type} (w : World ε) (c : Context) :
    (∀ args env, Call.execRun args env ∈ (Action w c).calls →
      ∃ cfg, w.Apply cfg = none ∧
        (Action w c).calls = [Call.sandboxApply cfg, Call.execRun args env]) ∧
    (∀ cfg err, Call.sandboxApply cfg ∈ (Action w c).calls → w.Apply cfg = some err →
      (Action w c).halt = Halt.fatal "Failed to apply sandbox: %v" [err] ∧
      execRuns (Action w c).calls = []) := by
  constructor
  · intro args env hmem
    rcases Action_cases w c with ⟨_, hA⟩ | ⟨err, _, _, hA⟩ | ⟨_, he, hA⟩
    · rw [hA] at hmem; simp at hmem
    · rw [hA] at hmem; simp at hmem
    · refine ⟨configOf c, he, ?_⟩
      rw [hA] at hmem ⊢
      simp at hmem
      obtain ⟨rfl, rfl⟩ := hmem
      rfl
  · intro cfg err hmem herr
    have hcfg := applied_config_eq w c cfg hmem
    subst hcfg
    rcases Action_cases w c with ⟨_, hA⟩ | ⟨err', _, he, hA⟩ | ⟨_, he, hA⟩
    · rw [hA] at hmem; simp at hmem
    · rw [he] at herr
      cases herr
      rw [hA]
      exact ⟨rfl, by simp [execRuns]⟩
    · rw [he] at herr
      cases herr

/-- Witness of C1: a run whose `sandbox.Apply` returns an error. -/
theorem C1_exec_only_after_apply_succeeded_witness :
    applyFailsWorld.Apply (configOf sampleContext) = some "landlock is not supported" ∧
    (Action applyFailsWorld sampleContext).halt
      = Halt.fatal "Failed to apply sandbox: %v" ["landlock is not supported"] ∧
    execRuns (Action applyFailsWorld sampleContext).calls = [] :=
  ⟨rfl, (C1_exec_only_after_apply_succeeded applyFailsWorld sampleContext).2
    (configOf sampleContext) "landlock is not supported" (by decide) rfl⟩

/-- C2: `processEnvironmentVars` returns the order-preserving list obtained by
mapping each flag in turn as the specification says (`childEnvSpec`): a flag
with `=` verbatim, a bare name set to `v` as `name=v`, an unset bare name as
nothing. -/
theorem C2_processEnvironmentVars_refines_spec (L : Environ) (envFlags : List String) :
    processEnvironmentVars L envFlags = childEnvSpec L envFlags :=
  processEnvironmentVars_eq L envFlags

/-- C3: every configuration the action passes to `sandbox.Apply` has
`ReadOnlyPaths = ro ++ rox`, `ReadWritePaths = rw ++ rwx`,
`ReadOnlyExecutablePaths = rox` and `ReadWriteExecutablePaths = rwx` as lists
(order and duplicates kept), and with a command given one is passed. -/
theorem C3_applied_config_paths {ε : Type} (w : World ε) (c : Context) :
    (c.Args ≠ [] → ∃ cfg, appliedConfigs (Action w c).calls = [cfg]) ∧
    (∀ cfg, Call.sandboxApply cfg ∈ (Action w c).calls →
      cfg.ReadOnlyPaths = c.flagRo ++ c.flagRox ∧
      cfg.ReadWritePaths = c.flagRw ++ c.flagRwx ∧
      cfg.ReadOnlyExecutablePaths = c.flagRox ∧
      cfg.ReadWriteExecutablePaths = c.flagRwx) := by
  refine ⟨fun h => ⟨configOf c, applied_config_once w c h⟩, ?_⟩
  intro cfg hmem
  rw [applied_config_eq w c cfg hmem]
  exact ⟨rfl, rfl, rfl, rfl⟩

/-- Witness of C3: a run with a repeated `--rox` path. -/
theorem C3_applied_config_paths_witness :
    (∃ cfg, appliedConfigs (Action runFailsWorld sampleContext).calls = [cfg]) ∧
    (configOf sampleContext).ReadOnlyPaths = ["/usr", "/bin", "/bin"] ∧
    (configOf sampleContext).ReadWritePaths = ["/tmp", "/opt"] ∧
    (configOf sampleContext).ReadOnlyExecutablePaths = ["/bin", "/bin"] ∧
    (configOf sampleContext).ReadWriteExecutablePaths = ["/opt"] :=
  ⟨(C3_applied_config_paths runFailsWorld sampleContext).1 (by decide),
    (C3_applied_config_paths runFailsWorld sampleContext).2 (configOf sampleContext)
      (by decide)⟩

/-- C6: every configuration the action passes to `sandbox.Apply` carries the
`--bind-tcp` and `--connect-tcp` lists unchanged and the three boolean flags as
given; and changing the two unrestricted flags of a command line leaves the four
path lists and the two port lists of the configuration as they were. -/
theorem C6_ports_and_switches_passed_unchanged {ε : Type} (w w' : World ε) (c : Context)
    (unrestrictedFilesystem unrestrictedNetwork : Bool) :
    (∀ cfg, Call.sandboxApply cfg ∈ (Action w c).calls →
      cfg.BindTCPPorts = c.flagBindTcp ∧
      cfg.ConnectTCPPorts = c.flagConnectTcp ∧
      cfg.BestEffort = c.flagBestEffort ∧
      cfg.UnrestrictedFilesystem = c.flagUnrestrictedFilesystem ∧
      cfg.UnrestrictedNetwork = c.flagUnrestrictedNetwork) ∧
    (∀ cfg cfg', Call.sandboxApply cfg ∈ (Action w c).calls →
      Call.sandboxApply cfg' ∈ (Action w'
        { c with flagUnrestrictedFilesystem := unrestrictedFilesystem
                 flagUnrestrictedNetwork := unrestrictedNetwork }).calls →
      cfg'.ReadOnlyPaths = cfg.ReadOnlyPaths ∧
      cfg'.ReadWritePaths = cfg.ReadWritePaths ∧
      cfg'.ReadOnlyExecutablePaths = cfg.ReadOnlyExecutablePaths ∧
      cfg'.ReadWriteExecutablePaths = cfg.ReadWriteExecutablePaths ∧
      cfg'.BindTCPPorts = cfg.BindTCPPorts ∧
      cfg'.ConnectTCPPorts = cfg.ConnectTCPPorts) := by
  constructor
  · intro cfg hmem
    rw [applied_config_eq w c cfg hmem]
    exact ⟨rfl, rfl, rfl, rfl, rfl⟩
  · intro cfg cfg' hmem hmem'
    rw [applied_config_eq w c cfg hmem, applied_config_eq w' _ cfg' hmem']
    exact ⟨rfl, rfl, rfl, rfl, rfl, rfl⟩

/-- Witness of C6: a run with a repeated port and ports outside `[0, 65535]`,
and the same command line with both unrestricted flags flipped. -/
theorem C6_ports_and_switches_passed_unchanged_witness :
    ((configOf sampleContext).BindTCPPorts = [8080, 70000, 8080] ∧
      (configOf sampleContext).ConnectTCPPorts = [-1] ∧
      (configOf sampleContext).BestEffort = false ∧
      (configOf sampleContext).UnrestrictedFilesystem = true ∧
      (configOf sampleContext).UnrestrictedNetwork = false) ∧
    ((configOf { sampleContext with flagUnrestrictedFilesystem := false
                                    flagUnrestrictedNetwork := true }).ReadOnlyPaths
        = (configOf sampleContext).ReadOnlyPaths ∧
      (configOf { sampleContext with flagUnrestrictedFilesystem := false
                                     flagUnrestrictedNetwork := true }).ReadWritePaths
        = (configOf sampleContext).ReadWritePaths ∧
      (configOf { sampleContext with flagUnrestrictedFilesystem := false
                                     flagUnrestrictedNetwork := true }).ReadOnlyExecutablePaths
        = (configOf sampleContext).ReadOnlyExecutablePaths ∧
      (configOf { sampleContext with flagUnrestrictedFilesystem := false
                                     flagUnrestrictedNetwork := true }).ReadWriteExecutablePaths
        = (configOf sampleContext).ReadWriteExecutablePaths ∧
      (configOf { sampleContext with flagUnrestrictedFilesystem := false
                                     flagUnrestrictedNetwork := true }).BindTCPPorts
        = (configOf sampleContext).BindTCPPorts ∧
      (configOf { sampleContext with flagUnrestrictedFilesystem := false
                                     flagUnrestrictedNetwork := true }).ConnectTCPPorts
        = (configOf sampleContext).ConnectTCPPorts) :=
  ⟨(C6_ports_and_switches_passed_unchanged runFailsWorld applyFailsWorld sampleContext
      false true).1 (configOf sampleContext) (by decide),
    (C6_ports_and_switches_passed_unchanged runFailsWorld applyFailsWorld sampleContext
      false true).2 (configOf sampleContext)
      (configOf { sampleContext with flagUnrestrictedFilesystem := false
                                     flagUnrestrictedNetwork := true })
      (by decide) (by decide)⟩

/-- C7: with an empty command argument list the action makes one call,
`log.Fatal("Missing command to run")`, and ends there: neither `sandbox.Apply`
nor `exec.Run` is called. -/
theorem C7_missing_command_fatal_first {ε : Type} (w : World ε) (c : Context)
    (h : c.Args = []) :
    Action w c = ⟨[Call.logFatal "Missing command to run" []],
      Halt.fatal "Missing command to run" []⟩ ∧
    appliedConfigs (Action w c).calls = [] ∧
    execRuns (Action w c).calls = [] := by
  rw [Action_missing_command w c h]
  exact ⟨rfl, by simp [appliedConfigs], by simp [execRuns]⟩

/-- Witness of C7: the sample command line without a command. -/
theorem C7_missing_command_fatal_first_witness :
    noCommandContext.Args = [] ∧
    Action runFailsWorld noCommandContext = ⟨[Call.logFatal "Missing command to run" []],
      Halt.fatal "Missing command to run" []⟩ ∧
    appliedConfigs (Action runFailsWorld noCommandContext).calls = [] ∧
    execRuns (Action runFailsWorld noCommandContext).calls = [] :=
  ⟨rfl, C7_missing_command_fatal_first runFailsWorld noCommandContext rfl⟩

/-- C8: two invoking environments that agree on every flag without `=` give the
same child environment; and every entry of the child environment comes from a
flag: it is a flag with `=` verbatim, or `name=v` for a flag `name` without `=`
that is set to `v`. -/
theorem C8_child_env_depends_only_on_named (L₁ L₂ : Environ) (envFlags : List String)
    (hagree : ∀ flag ∈ envFlags, stringsContains flag "=" = false → L₁ flag = L₂ flag) :
    processEnvironmentVars L₁ envFlags = processEnvironmentVars L₂ envFlags ∧
    (∀ entry ∈ processEnvironmentVars L₁ envFlags, ∃ flag ∈ envFlags,
      (stringsContains flag "=" = true ∧ entry = flag) ∨
      (stringsContains flag "=" = false ∧ ∃ v, L₁ flag = some v ∧ entry = flag ++ "=" ++ v)) := by
  rw [processEnvironmentVars_eq, processEnvironmentVars_eq]
  exact ⟨childEnvSpec_congr L₁ L₂ envFlags hagree, mem_childEnvSpec L₁ envFlags⟩

/-- Witness of C8: two environments that differ only in `SECRET`, which no
flag names. -/
theorem C8_child_env_depends_only_on_named_witness :
    sampleEnviron "SECRET" ≠ widerEnviron "SECRET" ∧
    processEnvironmentVars sampleEnviron ["HOME", "A=1", "NOPE", "EMPTY"]
      = processEnvironmentVars widerEnviron ["HOME", "A=1", "NOPE", "EMPTY"] :=
  ⟨by decide,
    (C8_child_env_depends_only_on_named sampleEnviron widerEnviron
      ["HOME", "A=1", "NOPE", "EMPTY"] (by decide)).1⟩

/-- C9: in every configuration the action passes to `sandbox.Apply`, a path of
`ReadWritePaths` was given with `--rw` or `--rwx`, a path of
`ReadOnlyExecutablePaths` with `--rox`, a path of `ReadWriteExecutablePaths`
with `--rwx`; and every path of an executable list is in the corresponding
`ReadOnlyPaths` / `ReadWritePaths` list. -/
theorem C9_config_never_widens {ε : Type} (w : World ε) (c : Context) (cfg : Config)
    (hmem : Call.sandboxApply cfg ∈ (Action w c).calls) :
    (∀ path ∈ cfg.ReadWritePaths, path ∈ c.flagRw ∨ path ∈ c.flagRwx) ∧
    (∀ path ∈ cfg.ReadOnlyExecutablePaths, path ∈ c.flagRox) ∧
    (∀ path ∈ cfg.ReadWriteExecutablePaths, path ∈ c.flagRwx) ∧
    (∀ path ∈ cfg.ReadOnlyExecutablePaths, path ∈ cfg.ReadOnlyPaths) ∧
    (∀ path ∈ cfg.ReadWriteExecutablePaths, path ∈ cfg.ReadWritePaths) := by
  rw [applied_config_eq w c cfg hmem]
  simp only [configOf, List.mem_append]
  exact ⟨fun _ h => h, fun _ h => h, fun _ h => h, fun _ h => Or.inr h, fun _ h => Or.inr h⟩

/-- Witness of C9: the configuration of the sample run. -/
theorem C9_config_never_widens_witness :
    (∀ path ∈ (configOf sampleContext).ReadWritePaths,
      path ∈ sampleContext.flagRw ∨ path ∈ sampleContext.flagRwx) ∧
    (∀ path ∈ (configOf sampleContext).ReadOnlyExecutablePaths, path ∈ sampleContext.flagRox) ∧
    (∀ path ∈ (configOf sampleContext).ReadWriteExecutablePaths, path ∈ sampleContext.flagRwx) ∧
    (∀ path ∈ (configOf sampleContext).ReadOnlyExecutablePaths,
      path ∈ (configOf sampleContext).ReadOnlyPaths) ∧
    (∀ path ∈ (configOf sampleContext).ReadWriteExecutablePaths,
      path ∈ (configOf sampleContext).ReadWritePaths) :=
  C9_config_never_widens runFailsWorld sampleContext (configOf sampleContext) (by decide)

/-- C10: every entry of the result of `processEnvironmentVars` contains `=`,
and applying `processEnvironmentVars`, under any environment, to that result
returns it unchanged. -/
theorem C10_processEnvironmentVars_idempotent (L L' : Environ) (envFlags : List String) :
    (∀ entry ∈ processEnvironmentVars L envFlags, stringsContains entry "=" = true) ∧
    processEnvironmentVars L' (processEnvironmentVars L envFlags)
      = processEnvironmentVars L envFlags := by
  have hall : ∀ entry ∈ processEnvironmentVars L envFlags,
      stringsContains entry "=" = true := by
    rw [processEnvironmentVars_eq]
    exact childEnvSpec_all_contain L envFlags
  exact ⟨hall, by
    rw [processEnvironmentVars_eq L' (processEnvironmentVars L envFlags)]
    exact childEnvSpec_fixed L' _ hall⟩

end Landrun
